import Mathlib

/-!
Shallow embedding of the iKYC ledger + credential-proof core
(`blockchain/transaction.py`, `blockchain/block.py`, `blockchain/storage.py`,
`blockchain/zk_proofs.py`).

SHA-256 and the canonical-JSON serialization feeding it are modelled by an
explicit parameter `H : HashInput → String`, where `HashInput` records exactly
the fields that the source serializes into the digest.  RSA-PSS signing is
modelled by a `SigScheme` parameter.  Wall-clock reads (`time()`) and random
draws (`os.urandom`) are passed in as explicit arguments.
-/

/-- JSON-like payload of a transaction / the customer-data map: a string-keyed
map with string values (shallow model of Python `Dict[str, Any]`). -/
abbrev Payload := List (String × String)

/-- The dictionary produced by `Transaction.to_dict` (six fields, including
the stored `tx_hash`). -/
structure TxDict where
  sender : String
  recipient : String
  payload : Payload
  timestamp : Int
  signature : String
  tx_hash : String
deriving DecidableEq, Inhabited

/-- The exact data that the source serializes (canonical key-sorted JSON) and
feeds to `hashlib.sha256`:
* `txData` — the five-field dict hashed by `Transaction.compute_hash`;
* `blockData` — the five-field dict hashed by `Block.compute_hash`
  (transactions enter via `to_dict`, so each stored `tx_hash` is included);
* `commitment` — the `commitment_data` dict hashed by
  `ZKProofGenerator._create_commitment`. -/
inductive HashInput where
  | txData (sender recipient : String) (payload : Payload) (timestamp : Int)
      (signature : String)
  | blockData (index : Nat) (transactions : List TxDict) (timestamp : Int)
      (previous_hash : String) (nonce : Nat)
  | commitment (customer_pii : Payload) (level issuer : String) (timestamp : Int)
deriving DecidableEq

/-- Model of `Transaction` (transaction.py): immutable value object; `tx_hash` is set
once at construction. -/
structure Transaction where
  sender : String
  recipient : String
  payload : Payload
  timestamp : Int
  signature : String
  tx_hash : String
deriving DecidableEq, Inhabited

/-- Model of `Transaction.compute_hash`: SHA-256 over the canonical JSON of the five
data fields (`tx_hash` itself is not part of the digest input). -/
def Transaction.compute_hash (H : HashInput → String) (t : Transaction) : String :=
  H (.txData t.sender t.recipient t.payload t.timestamp t.signature)

/-- Model of `Transaction.__init__`: stores the five fields and computes `tx_hash`. -/
def Transaction.create (H : HashInput → String) (sender recipient : String)
    (payload : Payload) (timestamp : Int) (signature : String) : Transaction :=
  let t : Transaction :=
    { sender := sender, recipient := recipient, payload := payload,
      timestamp := timestamp, signature := signature, tx_hash := "" }
  { t with tx_hash := Transaction.compute_hash H t }

/-- Model of `Transaction.to_dict`. -/
def Transaction.to_dict (t : Transaction) : TxDict :=
  { sender := t.sender, recipient := t.recipient, payload := t.payload,
    timestamp := t.timestamp, signature := t.signature, tx_hash := t.tx_hash }

/-- Model of `Block` (block.py). -/
structure Block where
  index : Nat
  transactions : List Transaction
  timestamp : Int
  previous_hash : String
  nonce : Nat
  hash : String
deriving DecidableEq, Inhabited

/-- Model of `Block.compute_hash`: SHA-256 over index, serialized transactions,
timestamp, previous_hash and nonce (the stored `hash` field is not input). -/
def Block.compute_hash (H : HashInput → String) (b : Block) : String :=
  H (.blockData b.index (b.transactions.map Transaction.to_dict) b.timestamp
      b.previous_hash b.nonce)

/-- Model of `Block.__init__`: stores the fields and sets `hash := compute_hash()`. -/
def Block.create (H : HashInput → String) (index : Nat)
    (transactions : List Transaction) (timestamp : Int) (previous_hash : String)
    (nonce : Nat) : Block :=
  let b : Block :=
    { index := index, transactions := transactions, timestamp := timestamp,
      previous_hash := previous_hash, nonce := nonce, hash := "" }
  { b with hash := Block.compute_hash H b }

/-- The class attribute `Blockchain.difficulty = 2`.  `proof_of_work`,
`is_valid_proof` and `check_chain_validity` all read this class-level value
(the source writes `Blockchain.difficulty`, not `self.difficulty`). -/
def classDifficulty : Nat := 2

/-- The string `'0' * n` used as the required difficulty target. -/
def zeros (n : Nat) : String := String.mk (List.replicate n '0')

/-- Python's `str.startswith`, as a structural recursion over the character
lists (core's `String.startsWith` is well-founded-recursive and does not
reduce in the kernel). -/
def String.startswith (s pre : String) : Bool :=
  pre.toList.isPrefixOf s.toList

/-- Model of `Blockchain` (block.py).  The `difficulty` field models the *instance*
attribute: absent on a freshly constructed object (reads fall back to the
class value 2), but assigned by `BlockchainStorage.load_blockchain`. -/
structure Blockchain where
  unconfirmed_transactions : List Transaction
  chain : List Block
  difficulty : Nat
deriving DecidableEq, Inhabited

/-- The nonce-search loop of `Blockchain.proof_of_work`, with explicit fuel
standing in for the unbounded Python `while` loop: starting at `nonce`, test
`compute_hash` of the block at each successive nonce until the digest starts
with `'0' * Blockchain.difficulty`; return the winning nonce and hash. -/
def powLoop (H : HashInput → String) (b : Block) (nonce : Nat) :
    Nat → Option (Nat × String)
  | 0 => none
  | fuel + 1 =>
    let h := Block.compute_hash H { b with nonce := nonce }
    if h.startswith (zeros classDifficulty) then some (nonce, h)
    else powLoop H b (nonce + 1) fuel

/-- Model of `Blockchain.proof_of_work`: resets `block.nonce` to 0 and searches
sequentially; on success the block carries the winning nonce and the winning
hash is returned.  `none` models a search that has not terminated within
`fuel` steps. -/
def Blockchain.proof_of_work (H : HashInput → String) (fuel : Nat)
    (_self : Blockchain) (b : Block) : Option (Block × String) :=
  (powLoop H b 0 fuel).map fun p => ({ b with nonce := p.1 }, p.2)

/-- Model of `Blockchain.is_valid_proof`: the proposed hash must start with
`'0' * Blockchain.difficulty` and equal `block.compute_hash()`. -/
def Blockchain.is_valid_proof (H : HashInput → String) (_self : Blockchain)
    (b : Block) (block_hash : String) : Bool :=
  block_hash.startswith (zeros classDifficulty) && (block_hash == Block.compute_hash H b)

/-- Model of `Blockchain.add_block`: reject on previous-hash mismatch or invalid proof;
otherwise set `block.hash := proof` and append.  Returns the updated chain
state together with the source's boolean result.  (On an empty chain the
source's `self.last_block` would raise; constructed chains always carry a
genesis block, and the `none` branch returns `false` without appending.) -/
def Blockchain.add_block (H : HashInput → String) (bc : Blockchain) (b : Block)
    (proof : String) : Blockchain × Bool :=
  match bc.chain.getLast? with
  | none => (bc, false)
  | some last =>
    if b.previous_hash ≠ last.hash then (bc, false)
    else if ¬ (Blockchain.is_valid_proof H bc b proof = true) then (bc, false)
    else ({ bc with chain := bc.chain ++ [{ b with hash := proof }] }, true)

/-- Model of `Blockchain.add_new_transaction`. -/
def Blockchain.add_new_transaction (bc : Blockchain) (t : Transaction) : Blockchain :=
  { bc with unconfirmed_transactions := bc.unconfirmed_transactions ++ [t] }

/-- Model of `Blockchain.create_genesis_block` + `Blockchain.__init__`: a fresh chain
holds exactly one block with index 0, no transactions and previous_hash "0",
itself sealed by proof-of-work.  `ts` stands for the `time()` read; `none`
models a genesis proof-of-work search exceeding `fuel`. -/
def Blockchain.create (H : HashInput → String) (fuel : Nat) (ts : Int) :
    Option Blockchain :=
  let g := Block.create H 0 [] ts "0" 0
  match powLoop H g 0 fuel with
  | none => none
  | some p =>
    some { unconfirmed_transactions := [],
           chain := [{ g with nonce := p.1, hash := p.2 }],
           difficulty := classDifficulty }

/-- Model of `Blockchain.mine`: no-op on an empty queue; otherwise build the new block
from the full unconfirmed set, run proof-of-work, `add_block`, and on success
clear the queue and return the new block.  `ts` stands for the `time()` read
at block creation. -/
def Blockchain.mine (H : HashInput → String) (fuel : Nat) (ts : Int)
    (bc : Blockchain) : Option Block × Blockchain :=
  match bc.unconfirmed_transactions, bc.chain.getLast? with
  | [], _ => (none, bc)
  | _ :: _, none => (none, bc)
  | _ :: _, some last =>
    let new_block := Block.create H (last.index + 1) bc.unconfirmed_transactions
      ts last.hash 0
    match powLoop H new_block 0 fuel with
    | none => (none, bc)
    | some p =>
      let mined : Block := { new_block with nonce := p.1 }
      let res := Blockchain.add_block H bc mined p.2
      if res.2 then
        (some { mined with hash := p.2 }, { res.1 with unconfirmed_transactions := [] })
      else (none, res.1)

/-- The walk of `Blockchain.check_chain_validity`: carry the running
`previous_hash`, rejecting on broken linkage, stored-hash mismatch, or (for
blocks of index ≠ 0) a hash missing the difficulty prefix. -/
def checkLoop (H : HashInput → String) (previous_hash : String) :
    List Block → Bool
  | [] => true
  | b :: rest =>
    if b.previous_hash ≠ previous_hash then false
    else if b.hash ≠ Block.compute_hash H b then false
    else if b.index ≠ 0 ∧ ¬ (b.hash.startswith (zeros classDifficulty) = true) then false
    else checkLoop H b.hash rest

/-- Model of `Blockchain.check_chain_validity`: walk from the virtual previous hash
"0".  The method reads only the class-level difficulty, never `self`. -/
def Blockchain.check_chain_validity (H : HashInput → String)
    (_self : Blockchain) (chain : List Block) : Bool :=
  checkLoop H "0" chain

/-! ## Storage (storage.py)
File I/O is abstracted away: `save_blockchain` produces the JSON document it
would write, and `load_blockchain` consumes such a document (the
file-missing and exception branches of the source are not reachable on a
well-typed document).  The source communicates a failed validity check of a
loaded chain only through a printed warning while still returning the chain;
the model returns that validity flag alongside the chain. -/

/-- One block entry of the snapshot document. -/
structure BlockDict where
  index : Nat
  timestamp : Int
  previous_hash : String
  nonce : Nat
  hash : String
  transactions : List TxDict
deriving DecidableEq, Inhabited

/-- The snapshot `metadata` object. -/
structure Metadata where
  total_blocks : Nat
  difficulty : Nat
  saved_at : Int
  last_block_hash : Option String
deriving DecidableEq, Inhabited

/-- The snapshot document `{chain: [...], metadata: {...}}`. -/
structure BlockchainData where
  chain : List BlockDict
  metadata : Metadata
deriving DecidableEq, Inhabited

/-- The per-block serialization inside `BlockchainStorage.save_blockchain`. -/
def blockToDict (b : Block) : BlockDict :=
  { index := b.index, timestamp := b.timestamp, previous_hash := b.previous_hash,
    nonce := b.nonce, hash := b.hash,
    transactions := b.transactions.map Transaction.to_dict }

/-- Model of `BlockchainStorage.save_blockchain`: serialize the whole chain plus
metadata (`saved_at` stands for the `datetime.now()` read). -/
def save_blockchain (bc : Blockchain) (saved_at : Int) : BlockchainData :=
  { chain := bc.chain.map blockToDict,
    metadata :=
      { total_blocks := bc.chain.length,
        difficulty := bc.difficulty,
        saved_at := saved_at,
        last_block_hash := (bc.chain.getLast?).map Block.hash } }

/-- Transaction reconstruction inside `load_blockchain`: rebuild via the
constructor (which recomputes a hash from the loaded fields), then overwrite
`tx_hash` with the stored value — the stored value is never compared against
the recomputation. -/
def loadTx (H : HashInput → String) (d : TxDict) : Transaction :=
  let t := Transaction.create H d.sender d.recipient d.payload d.timestamp
    d.signature
  { t with tx_hash := d.tx_hash }

/-- Block reconstruction inside `load_blockchain`: rebuild via the
constructor, then overwrite `hash` with the stored value. -/
def loadBlock (H : HashInput → String) (d : BlockDict) : Block :=
  let b := Block.create H d.index (d.transactions.map (loadTx H)) d.timestamp
    d.previous_hash d.nonce
  { b with hash := d.hash }

/-- Model of `BlockchainStorage.load_blockchain` on an existing snapshot: build a bare
instance, assign the instance attribute `difficulty` from the metadata,
reconstruct every block, then run `check_chain_validity`.  The chain is
returned whether or not it validates; the boolean is the validity result the
source merely prints. -/
def load_blockchain (H : HashInput → String) (doc : BlockchainData) :
    Blockchain × Bool :=
  let bc : Blockchain :=
    { unconfirmed_transactions := [],
      chain := doc.chain.map (loadBlock H),
      difficulty := doc.metadata.difficulty }
  (bc, Blockchain.check_chain_validity H bc bc.chain)

/-! ## Credential proofs (zk_proofs.py)
RSA-PSS is modelled by an explicit `SigScheme`; the generator's key pair is a
pair of `Nat` handles.  Random draws (`challenge`, the bytes behind
`proof_id`) and every `time()` read are passed as arguments. -/

/-- The `public_claims` object assembled by `generate_kyc_proof`. -/
structure PublicClaims where
  verification_level : String
  issuing_institution : String
  verification_completed : Bool
  meets_compliance : Bool
  timestamp : Int
deriving DecidableEq, Inhabited

/-- A KYC proof minus its `proof_signature` — exactly the dictionary that
`_sign_proof` serializes (it pops the signature fields before signing), and
that `verify_kyc_proof` re-serializes for signature checking. -/
structure ProofCore where
  proof_type : String
  commitment_hash : String
  challenge : String
  public_claims : PublicClaims
  proof_id : String
  generated_at : Int
deriving DecidableEq, Inhabited

/-- The full proof dictionary returned by `generate_kyc_proof`
(`proof_signature` is `None` until signing). -/
structure KYCProof extends ProofCore where
  proof_signature : Option String
deriving DecidableEq, Inhabited

/-- The `shared_claims` sub-object of a cross-institution sharing proof. -/
structure SharedClaims where
  kyc_completed : Bool
  verification_level : String
  compliance_status : String
  issuing_institution : String
deriving DecidableEq, Inhabited

/-- A sharing proof minus its `sharing_signature` — the dictionary signed by
`_sign_proof` in `generate_cross_institution_proof`. -/
structure SharingCore where
  proof_type : String
  original_proof_id : String
  sharing_approved : Bool
  requesting_institution : String
  verification_level_confirmed : String
  original_issuer : String
  shared_claims : SharedClaims
  privacy_preserved : Bool
  customer_data_protected : Bool
  sharing_timestamp : Int
deriving DecidableEq, Inhabited

/-- The full sharing proof returned on approval. -/
structure SharingProof extends SharingCore where
  sharing_signature : String
deriving DecidableEq, Inhabited

/-- The payloads handed to `_sign_proof` (the proof dictionary with its
signature fields popped). -/
inductive SignInput where
  | kyc (core : ProofCore)
  | sharing (core : SharingCore)
deriving DecidableEq

/-- Abstract model of RSA-PSS over the generator's key pair: `sign` takes the
private-key handle, `sverify` the public-key handle; `sverify` returns the
boolean that the source derives from the verify-or-raise call. -/
structure SigScheme where
  sign : Nat → SignInput → String
  sverify : Nat → String → SignInput → Bool

/-- Model of `ZKProofGenerator.generate_kyc_proof`: commit to
`{customer_pii, verification_details}` via SHA-256, assemble the public
claims and proof structure, then sign the signature-free dictionary with the
generator's private key.  `commitTime` is the `time()` read inside the
commitment/claims, `genAt` the `time()` read for `generated_at`; `challenge`
and `proofId` stand for the random draws of `_generate_challenge` and
`_generate_proof_id`. -/
def generate_kyc_proof (H : HashInput → String) (S : SigScheme) (sk : Nat)
    (customer_data : Payload) (verification_level issuing_institution : String)
    (commitTime : Int) (challenge : String) (proofId : String) (genAt : Int) :
    KYCProof :=
  let commitment_hash :=
    H (.commitment customer_data verification_level issuing_institution commitTime)
  let public_claims : PublicClaims :=
    { verification_level := verification_level,
      issuing_institution := issuing_institution,
      verification_completed := true,
      meets_compliance := true,
      timestamp := commitTime }
  let core : ProofCore :=
    { proof_type := "kyc_verification_proof",
      commitment_hash := commitment_hash,
      challenge := challenge,
      public_claims := public_claims,
      proof_id := proofId,
      generated_at := genAt }
  { toProofCore := core, proof_signature := some (S.sign sk (.kyc core)) }

/-- Model of `ZKProofGenerator._validate_proof_structure`: the source walks the
required top-level field names and the required `public_claims` sub-fields;
on a fully-typed `KYCProof` record every one of them is necessarily present,
so the walk always returns `True`. -/
def validate_proof_structure (_proof : KYCProof) : Bool := true

/-- The dictionary built and returned by `verify_kyc_proof` on its normal
path (the fields the rest of the system consults). -/
structure VerificationReport where
  valid : Bool
  signature_verified : Bool
  structure_valid : Bool
  not_expired : Bool
  proof_age_seconds : Int
  verification_level : String
  issuing_institution : String
deriving DecidableEq, Inhabited

/-- Result of `verify_kyc_proof`: either the early `{valid: False, reason}`
dictionary (missing signature / unexpected exception) or the full report. -/
inductive VerifyResult where
  | failure (reason : String)
  | report (r : VerificationReport)
deriving DecidableEq, Inhabited

/-- The `['valid']` field of either result shape. -/
def VerifyResult.valid : VerifyResult → Bool
  | .failure _ => false
  | .report r => r.valid

/-- Model of `result.get('verification_level', 'NONE')` as read by
`generate_cross_institution_proof`: the key is absent from the early-failure
dictionary. -/
def VerifyResult.levelOrNone : VerifyResult → String
  | .failure _ => "NONE"
  | .report r => r.verification_level

/-- Model of `result.get('issuing_institution')` as read by
`generate_cross_institution_proof` (empty on the early-failure shape). -/
def VerifyResult.issuerOrNone : VerifyResult → String
  | .failure _ => ""
  | .report r => r.issuing_institution

/-- Model of `ZKProofGenerator.verify_kyc_proof`: fail early on a missing signature;
otherwise check the RSA-PSS signature over the signature-free dictionary,
the structural fields, and the 24-hour expiry window, and report the
conjunction.  `now` is the `time()` read. -/
def verify_kyc_proof (S : SigScheme) (pk : Nat) (proof : KYCProof) (now : Int) :
    VerifyResult :=
  match proof.proof_signature with
  | none => .failure "Missing proof signature"
  | some sig =>
    let signature_valid := S.sverify pk sig (.kyc proof.toProofCore)
    let structure_valid := validate_proof_structure proof
    let proof_age := now - proof.generated_at
    let not_expired : Bool := proof_age < 86400
    .report
      { valid := signature_valid && structure_valid && not_expired,
        signature_verified := signature_valid,
        structure_valid := structure_valid,
        not_expired := not_expired,
        proof_age_seconds := proof_age,
        verification_level := proof.public_claims.verification_level,
        issuing_institution := proof.public_claims.issuing_institution }

/-- Model of `level_hierarchy.get(level, default)` with
`level_hierarchy = {'CIP': 1, 'CDD': 2, 'EDD': 3}`. -/
def levelHierarchyGet (level : String) (default : Nat) : Nat :=
  if level = "CIP" then 1
  else if level = "CDD" then 2
  else if level = "EDD" then 3
  else default

/-- Result of `generate_cross_institution_proof`: the denial dictionary
`{sharing_approved: False, reason, timestamp}` or the signed sharing proof. -/
inductive SharingResult where
  | denied (reason : String) (timestamp : Int)
  | approved (sp : SharingProof)
deriving DecidableEq, Inhabited

/-- The `['sharing_approved']` field of either result shape. -/
def SharingResult.sharing_approved : SharingResult → Bool
  | .denied _ _ => false
  | .approved sp => sp.sharing_approved

/-- Model of `ZKProofGenerator.generate_cross_institution_proof`: re-verify the
original proof (with the generator's own public key), deny if invalid; deny
if the original level ranks below the required level under
`{CIP:1, CDD:2, EDD:3}` (absent original level defaults to rank 0, absent
required level to rank 2); otherwise build and sign the sharing proof.
`now` stands for the `time()` reads. -/
def generate_cross_institution_proof (S : SigScheme) (sk pk : Nat)
    (original_proof : KYCProof) (requesting_institution : String)
    (required_verification_level : String) (now : Int) : SharingResult :=
  let ov := verify_kyc_proof S pk original_proof now
  if ¬ (ov.valid = true) then .denied "Original proof is invalid" now
  else
    let original_level := ov.levelOrNone
    let original_level_value := levelHierarchyGet original_level 0
    let required_level_value := levelHierarchyGet required_verification_level 2
    if original_level_value < required_level_value then
      .denied ("Verification level " ++ original_level ++
        " insufficient for requirement " ++ required_verification_level) now
    else
      let core : SharingCore :=
        { proof_type := "cross_institution_sharing",
          original_proof_id := original_proof.proof_id,
          sharing_approved := true,
          requesting_institution := requesting_institution,
          verification_level_confirmed := original_level,
          original_issuer := ov.issuerOrNone,
          shared_claims :=
            { kyc_completed := true,
              verification_level := original_level,
              compliance_status := "VERIFIED",
              issuing_institution := ov.issuerOrNone },
          privacy_preserved := true,
          customer_data_protected := true,
          sharing_timestamp := now }
      .approved { toSharingCore := core, sharing_signature := S.sign sk (.sharing core) }

/-! ## Spec-side definitions and concrete instances used by witnesses -/

/-- Spec-side restatement of `check_chain_validity` (follows the spec's
words): starting from a virtual previous_hash of "0", every block links to
the running hash, every stored hash equals its recomputation, and every
block with index ≠ 0 carries the difficulty prefix. -/
def chain_valid_spec (H : HashInput → String) (previous_hash : String) :
    List Block → Prop
  | [] => True
  | b :: rest =>
    b.previous_hash = previous_hash ∧
    b.hash = Block.compute_hash H b ∧
    (b.index ≠ 0 → b.hash.startswith (zeros classDifficulty) = true) ∧
    chain_valid_spec H b.hash rest

/-- Post-hash tampering of a block: replace the payload of transaction `j`
with `p'`, leaving the stored hashes untouched. -/
def tamperBlock (b : Block) (j : Nat) (t : Transaction) (p' : Payload) : Block :=
  { b with transactions := b.transactions.set j { t with payload := p' } }

/-- The number of leading '0' characters of a hex digest (used to state the
"exactly `difficulty` leading zeros" sentence of the spec). -/
def leadingZeros (s : String) : Nat :=
  (s.toList.takeWhile fun c => c = '0').length

/-- Every string field of a generated KYC proof, used to state the claim
that no customer key or value appears verbatim anywhere in the proof. -/
def proofStrings (p : KYCProof) : List String :=
  [p.proof_type, p.commitment_hash, p.challenge,
   p.public_claims.verification_level, p.public_claims.issuing_institution,
   p.proof_id] ++
  (match p.proof_signature with
   | some s => [s]
   | none => [])

/-- Concrete string encoding of a payload (witness machinery). -/
def encPayload : Payload → String
  | [] => ""
  | (k, v) :: rest => k ++ "=" ++ v ++ ";" ++ encPayload rest

/-- Concrete string encoding of a serialized transaction (witness machinery). -/
def encTxDict (t : TxDict) : String :=
  "(" ++ t.sender ++ "," ++ t.recipient ++ "," ++ encPayload t.payload ++ "," ++
    toString t.timestamp ++ "," ++ t.signature ++ "," ++ t.tx_hash ++ ")"

/-- Concrete string encoding of a transaction list (witness machinery). -/
def encTxList : List TxDict → String
  | [] => ""
  | t :: rest => encTxDict t ++ encTxList rest

/-- Concrete string encoding of a hash input (witness machinery). -/
def encInput : HashInput → String
  | .txData s r p ts sig => "T," ++ s ++ "," ++ r ++ "," ++ encPayload p ++ "," ++
      toString ts ++ "," ++ sig
  | .blockData i txs ts ph n => "B," ++ toString i ++ "," ++ encTxList txs ++ "," ++
      toString ts ++ "," ++ ph ++ "," ++ toString n
  | .commitment p l iss ts => "C," ++ encPayload p ++ "," ++ l ++ "," ++ iss ++ "," ++
      toString ts

/-- A concrete stand-in digest for witnesses: content-dependent, and every
output carries the difficulty prefix, so proof-of-work succeeds at nonce 0. -/
def Hw (x : HashInput) : String := "00" ++ encInput x

/-- A concrete digest whose outputs carry three leading zeros: exhibits a
mined block whose hash exceeds the difficulty prefix. -/
def H3 (x : HashInput) : String := "000" ++ encInput x

/-- A concrete digest that fails the difficulty prefix at nonce 0 and meets
it from nonce 1 on: exhibits a mined block with a positive winning nonce. -/
def H4 (x : HashInput) : String :=
  match x with
  | .blockData _ _ _ _ 0 => "x" ++ encInput x
  | _ => "00" ++ encInput x

/-- A concrete signature scheme for witnesses: correct for matching key
handles, and content-dependent. -/
def Sw : SigScheme :=
  { sign := fun k _m => toString k ++ "#sig",
    sverify := fun k s _m => if s = toString k ++ "#sig" then true else false }

/-- Fresh demo chain under `Hw` (genesis found at nonce 0 with one unit of
fuel). -/
def demoBc : Blockchain :=
  (Blockchain.create Hw 1 0).getD default

/-- The demo transaction of end-to-end scenario A. -/
def demoTx : Transaction :=
  Transaction.create Hw "Bank_A" "Customer_123"
    [("kyc_id", "kyc_001"), ("status", "APPROVED")] 1 ""

/-- Demo chain with scenario A's transaction queued. -/
def demoBc1 : Blockchain := Blockchain.add_new_transaction demoBc demoTx

/-- Result of mining scenario A's transaction at time 5. -/
def demoMineRes : Option Block × Blockchain := Blockchain.mine Hw 1 5 demoBc1

/-- The block mined in scenario A. -/
def demoMinedBlock : Block := demoMineRes.1.getD default

/-- The chain state after mining scenario A's transaction. -/
def demoMinedBc : Blockchain := demoMineRes.2

/-- Fresh demo chain under `H3`. -/
def demoBc3 : Blockchain :=
  (Blockchain.create H3 1 0).getD default

/-- Demo chain under `H3` with one queued transaction. -/
def demoBc3q : Blockchain :=
  Blockchain.add_new_transaction demoBc3
    (Transaction.create H3 "Bank_A" "Customer_123" [("kyc_id", "kyc_001")] 1 "")

/-- Mining under `H3`: every digest has three leading zeros. -/
def demoMineRes3 : Option Block × Blockchain := Blockchain.mine H3 1 5 demoBc3q

/-- Fresh demo chain under `H4` (genesis wins at nonce 1, so two units of
fuel). -/
def demoBc4 : Blockchain :=
  (Blockchain.create H4 2 0).getD default

/-- Demo chain under `H4` with one queued transaction. -/
def demoBc4q : Blockchain :=
  Blockchain.add_new_transaction demoBc4
    (Transaction.create H4 "Bank_A" "Customer_123" [("kyc_id", "kyc_001")] 1 "")

/-- Mining under `H4`: the winning nonce is 1, not 0. -/
def demoMineRes4 : Option Block × Blockchain := Blockchain.mine H4 2 5 demoBc4q

/-- The genesis block of the demo chain. -/
def demoGenesis : Block := demoBc.chain.getD 0 default

/-- The serialized scenario-A transaction with its stored `tx_hash` replaced
by a bogus value. -/
def corruptTxDict : TxDict :=
  { demoTx.to_dict with tx_hash := "BOGUS" }

/-- A snapshot block entry whose stored block hash is recomputed over the
corrupted transaction dictionary, so the chain walk cannot notice the bogus
`tx_hash`. -/
def corruptBlockDict : BlockDict :=
  { index := 1, timestamp := 5, previous_hash := demoGenesis.hash, nonce := 0,
    hash := Hw (.blockData 1 [corruptTxDict] 5 demoGenesis.hash 0),
    transactions := [corruptTxDict] }

/-- A snapshot document that is internally consistent (linkage, block hashes,
difficulty prefix) but stores a `tx_hash` that does not match the hash
recomputed from the transaction's own fields. -/
def corruptDoc : BlockchainData :=
  { chain := [blockToDict demoGenesis, corruptBlockDict],
    metadata :=
      { total_blocks := 2, difficulty := 2, saved_at := 6,
        last_block_hash := some corruptBlockDict.hash } }

/-- Result of loading the corrupted snapshot. -/
def corruptLoaded : Blockchain × Bool := load_blockchain Hw corruptDoc

/-- The reconstructed transaction carrying the bogus stored hash. -/
def corruptLoadedTx : Transaction :=
  ((corruptLoaded.1.chain.getD 1 default).transactions.getD 0 default)

/-- A snapshot document whose metadata records difficulty 5. -/
def doc5 : BlockchainData :=
  { chain := [],
    metadata :=
      { total_blocks := 0, difficulty := 5, saved_at := 0,
        last_block_hash := none } }

/-- A generated demo credential at level "CDD" (scenario B). -/
def demoProofCDD : KYCProof :=
  generate_kyc_proof Hw Sw 7 [("name", "John Doe")] "CDD" "Bank_A" 10 "ch" "pid" 10

/-- A generated demo credential at level "EDD". -/
def demoProofEDD : KYCProof :=
  generate_kyc_proof Hw Sw 7 [("name", "John Doe")] "EDD" "Bank_A" 10 "ch" "pid" 10

/-- A generated demo credential at level "CIP". -/
def demoProofCIP : KYCProof :=
  generate_kyc_proof Hw Sw 7 [("name", "John Doe")] "CIP" "Bank_A" 10 "ch" "pid" 10

/-- A freshly constructed candidate block for `add_block` on top of the demo
genesis (its constructor hash is already the winning proof under `Hw`). -/
def demoAddBlock : Block :=
  Block.create Hw 1 [demoTx] 5 demoGenesis.hash 0

/-- The block mined under `H4` (winning nonce 1). -/
def demoMinedBlock4 : Block := demoMineRes4.1.getD default

/-- The verification report for the demo "CDD" credential checked right at
its generation time. -/
def demoReportCDD : VerificationReport :=
  match verify_kyc_proof Sw 7 demoProofCDD 10 with
  | .report r => r
  | .failure _ => default

/-! ## Helper lemmas -/

/-- Replacing the stored `hash` field does not change the recomputed hash. -/
theorem compute_hash_set_hash (H : HashInput → String) (b : Block) (s : String) :
    Block.compute_hash H { b with hash := s } = Block.compute_hash H b := rfl

/-- Characterization of a successful `powLoop` search: the returned hash is
the recomputation at the returned nonce, it meets the difficulty target, and
every nonce between the start and the winner fails the target. -/
theorem powLoop_some (H : HashInput → String) (b : Block) :
    ∀ (fuel start n : Nat) (s : String),
      powLoop H b start fuel = some (n, s) →
      s = Block.compute_hash H { b with nonce := n } ∧
      s.startswith (zeros classDifficulty) = true ∧
      start ≤ n ∧
      ∀ m, start ≤ m → m < n →
        (Block.compute_hash H { b with nonce := m }).startswith
          (zeros classDifficulty) = false := by
  intro fuel
  induction fuel with
  | zero => intro start n s hp; simp [powLoop] at hp
  | succ fuel ih =>
    intro start n s hp
    simp only [powLoop] at hp
    by_cases hc :
        (Block.compute_hash H { b with nonce := start }).startswith
          (zeros classDifficulty) = true
    · rw [if_pos hc] at hp
      obtain ⟨hn, hs⟩ : start = n ∧ Block.compute_hash H { b with nonce := start } = s := by
        have := Option.some.inj hp
        exact ⟨congrArg Prod.fst this, congrArg Prod.snd this⟩
      subst hn
      refine ⟨hs.symm, hs ▸ hc, le_refl _, ?_⟩
      intro m h1 h2
      exact absurd (lt_of_le_of_lt h1 h2) (lt_irrefl _)
    · rw [if_neg hc] at hp
      obtain ⟨he, hz, hle, hmin⟩ := ih (start + 1) n s hp
      refine ⟨he, hz, le_trans (Nat.le_succ _) hle, ?_⟩
      intro m h1 h2
      rcases Nat.eq_or_lt_of_le h1 with h1 | h1
      · subst h1
        exact Bool.not_eq_true _ ▸ (Bool.eq_false_iff.mpr hc)
      · exact hmin m h1 h2

/-- Lemma: `checkLoop` agrees with the spec-side validity predicate. -/
theorem checkLoop_iff_spec (H : HashInput → String) :
    ∀ (l : List Block) (ph : String),
      checkLoop H ph l = true ↔ chain_valid_spec H ph l := by
  intro l
  induction l with
  | nil => intro ph; simp [checkLoop, chain_valid_spec]
  | cons b rest ih =>
    intro ph
    simp only [checkLoop, chain_valid_spec]
    split_ifs with h1 h2 h3
    · simp only [false_iff]
      intro hs
      exact h1 hs.1
    · simp only [false_iff]
      intro hs
      exact h2 hs.2.1
    · simp only [false_iff]
      intro hs
      exact h3.2 (hs.2.2.1 h3.1)
    · rw [not_not] at h1 h2
      rw [ih]
      push_neg at h3
      constructor
      · intro hs
        exact ⟨h1, h2, fun hi => h3 hi, hs⟩
      · intro hs
        exact hs.2.2.2

/-- A chain that validates has every stored block hash equal to its
recomputation. -/
theorem checkLoop_hash_eq (H : HashInput → String) :
    ∀ (l : List Block) (ph : String) (b : Block),
      checkLoop H ph l = true → b ∈ l → b.hash = Block.compute_hash H b := by
  intro l
  induction l with
  | nil => intro ph b _ hb; cases hb
  | cons x rest ih =>
    intro ph b hchk hb
    simp only [checkLoop] at hchk
    split_ifs at hchk with h1 h2 h3
    rw [not_not] at h2
    rcases List.mem_cons.mp hb with hb | hb
    · subst hb; exact h2
    · exact ih x.hash b hchk hb

/-- Appending one block that links to the last block, stores its recomputed
hash, and (for nonzero index) meets the difficulty target preserves a
successful chain walk. -/
theorem checkLoop_append (H : HashInput → String) :
    ∀ (l : List Block) (ph : String) (b last : Block),
      l.getLast? = some last →
      checkLoop H ph l = true →
      b.previous_hash = last.hash →
      b.hash = Block.compute_hash H b →
      (b.index ≠ 0 → b.hash.startswith (zeros classDifficulty) = true) →
      checkLoop H ph (l ++ [b]) = true := by
  intro l
  induction l with
  | nil => intro ph b last hlast; simp at hlast
  | cons x rest ih =>
    intro ph b last hlast hchk hlink hhash hpow
    simp only [checkLoop] at hchk
    split_ifs at hchk with h1 h2 h3
    simp only [List.cons_append, checkLoop, if_neg h1, if_neg h2, if_neg h3]
    cases rest with
    | nil =>
      have hx : x = last := by
        simpa using hlast
      subst hx
      have hb3 : ¬ (b.index ≠ 0 ∧ ¬ (b.hash.startswith (zeros classDifficulty) = true)) := by
        intro hcon
        exact hcon.2 (hpow hcon.1)
      simp only [List.nil_append, checkLoop, if_neg (not_not_intro hlink),
        if_neg (not_not_intro hhash), if_neg hb3]
    | cons y ys =>
      have hlast' : (y :: ys).getLast? = some last := by
        simpa using hlast
      exact ih x.hash b last hlast' hchk hlink hhash hpow

/-- Unfolding of a `mine` call whose proof-of-work search succeeds: the block
built from the queue is sealed with the winning nonce and hash, appended, and
the queue is cleared. -/
theorem mine_eq_of_pow (H : HashInput → String) (fuel : Nat) (ts : Int)
    (bc : Blockchain) (last : Block) (t0 : Transaction) (rest : List Transaction)
    (n : Nat) (s : String)
    (hq : bc.unconfirmed_transactions = t0 :: rest)
    (hlast : bc.chain.getLast? = some last)
    (hpow : powLoop H
      (Block.create H (last.index + 1) bc.unconfirmed_transactions ts last.hash 0)
      0 fuel = some (n, s)) :
    Blockchain.mine H fuel ts bc =
      (some { Block.create H (last.index + 1) bc.unconfirmed_transactions ts
                last.hash 0 with nonce := n, hash := s },
       { bc with
           chain := bc.chain ++
             [{ Block.create H (last.index + 1) bc.unconfirmed_transactions ts
                  last.hash 0 with nonce := n, hash := s }],
           unconfirmed_transactions := [] }) := by
  obtain ⟨he, hz, -, -⟩ := powLoop_some H _ fuel 0 n s hpow
  rw [hq] at hpow
  have hvp : Blockchain.is_valid_proof H bc
      { Block.create H (last.index + 1) (t0 :: rest) ts last.hash 0 with
          nonce := n } s = true := by
    simp only [Blockchain.is_valid_proof, Bool.and_eq_true, beq_iff_eq]
    constructor
    · exact hz
    · rw [hq] at he
      exact he
  have hprev :
      ({ Block.create H (last.index + 1) (t0 :: rest) ts last.hash 0 with
          nonce := n } : Block).previous_hash = last.hash := by
    simp [Block.create]
  simp only [Blockchain.mine, hq, hlast, hpow, Blockchain.add_block,
    if_neg (not_not_intro hprev), if_neg (not_not_intro hvp)]
  simp

/-- C1: for a blockchain with a non-empty queue and a currently valid chain,
a completed `mine()` appends exactly one block whose index is the previous
last index plus one, whose previous_hash is the previous last hash, and whose
transactions are the queued ones; it clears the queue, and the grown chain
still satisfies `check_chain_validity`. -/
theorem mine_appends_valid_block (H : HashInput → String) (fuel : Nat) (ts : Int)
    (bc : Blockchain) (last nb : Block) (bc' : Blockchain)
    (hlast : bc.chain.getLast? = some last)
    (hne : bc.unconfirmed_transactions ≠ [])
    (hvalid : Blockchain.check_chain_validity H bc bc.chain = true)
    (hmine : Blockchain.mine H fuel ts bc = (some nb, bc')) :
    nb.index = last.index + 1 ∧
    nb.previous_hash = last.hash ∧
    nb.transactions = bc.unconfirmed_transactions ∧
    bc'.chain = bc.chain ++ [nb] ∧
    bc'.unconfirmed_transactions = [] ∧
    Blockchain.check_chain_validity H bc' bc'.chain = true := by
  obtain ⟨t0, rest, hq⟩ : ∃ t0 rest, bc.unconfirmed_transactions = t0 :: rest := by
    cases h : bc.unconfirmed_transactions with
    | nil => exact absurd h hne
    | cons a l => exact ⟨a, l, rfl⟩
  cases hpow : powLoop H
      (Block.create H (last.index + 1) bc.unconfirmed_transactions ts last.hash 0)
      0 fuel with
  | none =>
    rw [Blockchain.mine, hq, hlast] at hmine
    rw [hq] at hpow
    simp only [hpow] at hmine
    exact absurd (congrArg Prod.fst hmine) (by simp)
  | some p =>
    obtain ⟨n, s⟩ := p
    rw [mine_eq_of_pow H fuel ts bc last t0 rest n s hq hlast hpow] at hmine
    obtain ⟨he, hz, -, -⟩ := powLoop_some H _ fuel 0 n s hpow
    have hnb : nb = { Block.create H (last.index + 1) bc.unconfirmed_transactions
        ts last.hash 0 with nonce := n, hash := s } := by
      have := congrArg Prod.fst hmine
      simpa using this.symm
    have hbc' : bc' = { bc with
        chain := bc.chain ++ [nb],
        unconfirmed_transactions := [] } := by
      have := congrArg Prod.snd hmine
      rw [hnb]
      exact this.symm
    subst hnb
    refine ⟨by simp [Block.create], by simp [Block.create], by simp [Block.create],
      by rw [hbc'], by rw [hbc'], ?_⟩
    rw [hbc']
    show checkLoop H "0" (bc.chain ++ [_]) = true
    refine checkLoop_append H bc.chain "0" _ last hlast hvalid
      (by simp [Block.create]) ?_ (fun _ => ?_)
    · exact he
    · exact hz

/-- Witness for C1: end-to-end scenario A (fresh chain, one queued
transaction from Bank_A to Customer_123, then mine). -/
theorem mine_appends_valid_block_witness :
    demoMinedBlock.index = demoGenesis.index + 1 ∧
    demoMinedBlock.previous_hash = demoGenesis.hash ∧
    demoMinedBlock.transactions = demoBc1.unconfirmed_transactions ∧
    demoMinedBc.chain = demoBc1.chain ++ [demoMinedBlock] ∧
    demoMinedBc.unconfirmed_transactions = [] ∧
    Blockchain.check_chain_validity Hw demoMinedBc demoMinedBc.chain = true :=
  mine_appends_valid_block Hw 1 5 demoBc1 demoGenesis demoMinedBlock demoMinedBc
    (by decide) (by decide) (by decide) (by decide)

/-- C2: `check_chain_validity` returns true exactly when, walking from a
virtual previous_hash of "0", every block links to its predecessor's hash,
every stored hash equals its recomputation, and every block of index ≠ 0
meets the difficulty prefix; in particular, altering a transaction payload
after hashing (absent an SHA-256 collision between the altered and original
block serializations) makes it return false. -/
theorem check_chain_validity_iff_spec (H : HashInput → String) (bc : Blockchain)
    (chain : List Block) (i j : Nat) (b : Block) (t : Transaction) (p' : Payload) :
    (Blockchain.check_chain_validity H bc chain = true ↔
      chain_valid_spec H "0" chain) ∧
    (chain[i]? = some b →
     b.transactions[j]? = some t →
     p' ≠ t.payload →
     Block.compute_hash H (tamperBlock b j t p') ≠ Block.compute_hash H b →
     Blockchain.check_chain_validity H bc chain = true →
     Blockchain.check_chain_validity H bc
       (chain.set i (tamperBlock b j t p')) = false) := by
  refine ⟨checkLoop_iff_spec H chain "0", ?_⟩
  intro hgi _hgj _hp hcol hvalid
  have hib : b.hash = Block.compute_hash H b :=
    checkLoop_hash_eq H chain "0" b hvalid (List.getElem?_mem hgi)
  have hi : i < chain.length := by
    by_contra hlt
    push_neg at hlt
    rw [List.getElem?_eq_none_iff.mpr hlt] at hgi
    cases hgi
  have hmem : tamperBlock b j t p' ∈ chain.set i (tamperBlock b j t p') :=
    List.getElem?_mem (List.getElem?_set_eq_of_lt _ hi)
  cases hb : Blockchain.check_chain_validity H bc
      (chain.set i (tamperBlock b j t p')) with
  | false => rfl
  | true =>
    have heq : (tamperBlock b j t p').hash =
        Block.compute_hash H (tamperBlock b j t p') :=
      checkLoop_hash_eq H _ "0" _ hb hmem
    have hth : (tamperBlock b j t p').hash = b.hash := rfl
    exact absurd (heq.symm.trans (hth.trans hib)) hcol

/-- Witness for C2 at scenario A's two-block chain: the validity walk agrees
with the spec predicate, and replacing the mined transaction's payload with
a tampered value flips validation to false. -/
theorem check_chain_validity_iff_spec_witness :
    (Blockchain.check_chain_validity Hw demoMinedBc demoMinedBc.chain = true ↔
      chain_valid_spec Hw "0" demoMinedBc.chain) ∧
    Blockchain.check_chain_validity Hw demoMinedBc
      (demoMinedBc.chain.set 1
        (tamperBlock demoMinedBlock 0 demoTx [("kyc_id", "HACKED")])) = false :=
  ⟨(check_chain_validity_iff_spec Hw demoMinedBc demoMinedBc.chain 1 0
      demoMinedBlock demoTx [("kyc_id", "HACKED")]).1,
   (check_chain_validity_iff_spec Hw demoMinedBc demoMinedBc.chain 1 0
      demoMinedBlock demoTx [("kyc_id", "HACKED")]).2
     (by decide) (by decide) (by decide) (by decide) (by decide)⟩

/-- C3: `add_block` rejects (false, chain unchanged) whenever the block does
not link to the last block's hash, or the proposed proof misses the
difficulty prefix, or the proof differs from the block's recomputed hash;
otherwise it stores the proof as the block's hash, appends, and returns
true. -/
theorem add_block_spec (H : HashInput → String) (bc : Blockchain) (last b : Block)
    (proof : String) (hlast : bc.chain.getLast? = some last) :
    (b.previous_hash ≠ last.hash →
      Blockchain.add_block H bc b proof = (bc, false)) ∧
    (proof.startswith (zeros classDifficulty) = false →
      Blockchain.add_block H bc b proof = (bc, false)) ∧
    (proof ≠ Block.compute_hash H b →
      Blockchain.add_block H bc b proof = (bc, false)) ∧
    (b.previous_hash = last.hash →
     proof.startswith (zeros classDifficulty) = true →
     proof = Block.compute_hash H b →
     Blockchain.add_block H bc b proof =
       ({ bc with chain := bc.chain ++ [{ b with hash := proof }] }, true)) := by
  simp only [Blockchain.add_block, hlast]
  refine ⟨?_, ?_, ?_, ?_⟩
  · intro h
    rw [if_pos h]
  · intro h
    by_cases hprev : b.previous_hash ≠ last.hash
    · rw [if_pos hprev]
    · rw [if_neg hprev, if_pos (fun hvp => Bool.false_ne_true (by
        simpa only [Blockchain.is_valid_proof, h, Bool.false_and] using hvp))]
  · intro h
    by_cases hprev : b.previous_hash ≠ last.hash
    · rw [if_pos hprev]
    · rw [if_neg hprev, if_pos (fun hvp => h (by
        simp only [Blockchain.is_valid_proof, Bool.and_eq_true, beq_iff_eq] at hvp
        exact hvp.2))]
  · intro h1 h2 h3
    have hvp : Blockchain.is_valid_proof H bc b proof = true := by
      simp only [Blockchain.is_valid_proof, Bool.and_eq_true, beq_iff_eq]
      exact ⟨h2, h3⟩
    rw [if_neg (not_not_intro h1), if_neg (not_not_intro hvp)]

/-- Witness for C3: on the demo chain, a correctly linked block with its
recomputed winning hash is appended with result true, while the same block
with a broken previous_hash is rejected with the chain unchanged. -/
theorem add_block_spec_witness :
    Blockchain.add_block Hw demoBc1 demoAddBlock
        (Block.compute_hash Hw demoAddBlock) =
      ({ demoBc1 with chain := demoBc1.chain ++
          [{ demoAddBlock with hash := Block.compute_hash Hw demoAddBlock }] },
       true) ∧
    Blockchain.add_block Hw demoBc1 { demoAddBlock with previous_hash := "WRONG" }
        (Block.compute_hash Hw demoAddBlock) = (demoBc1, false) :=
  ⟨(add_block_spec Hw demoBc1 demoGenesis demoAddBlock
      (Block.compute_hash Hw demoAddBlock) (by decide)).2.2.2
      (by decide) (by decide) (by decide),
   (add_block_spec Hw demoBc1 demoGenesis
      { demoAddBlock with previous_hash := "WRONG" }
      (Block.compute_hash Hw demoAddBlock) (by decide)).1 (by decide)⟩

/-- C4 counterexample: under a digest whose outputs all carry three leading
'0' characters, `mine()` succeeds and produces a block whose hash does not
have exactly `difficulty` (= 2) leading '0' characters. -/
theorem mined_hash_not_exactly_difficulty_zeros :
    demoMineRes3.1 = some (demoMineRes3.1.getD default) ∧
    leadingZeros (demoMineRes3.1.getD default).hash ≠ classDifficulty := by
  exact ⟨by decide, by decide⟩

/-- C4 (amended): every block produced by a successful `mine()` has at least
`difficulty` leading '0' characters (the code tests only a prefix, so more
zeros can occur), its stored hash is its own recomputation, and its nonce is
the smallest non-negative integer whose recomputed hash meets the prefix
(the search runs sequentially from 0). -/
theorem mine_pow_least (H : HashInput → String) (fuel : Nat) (ts : Int)
    (bc : Blockchain) (nb : Block) (bc' : Blockchain) (m : Nat)
    (hmine : Blockchain.mine H fuel ts bc = (some nb, bc'))
    (hm : m < nb.nonce) :
    nb.hash.startswith (zeros classDifficulty) = true ∧
    nb.hash = Block.compute_hash H nb ∧
    (Block.compute_hash H { nb with nonce := m }).startswith
      (zeros classDifficulty) = false := by
  cases hq : bc.unconfirmed_transactions with
  | nil =>
    simp only [Blockchain.mine, hq] at hmine
    exact absurd (congrArg Prod.fst hmine) (by simp)
  | cons t0 rest =>
    cases hlast : bc.chain.getLast? with
    | none =>
      simp only [Blockchain.mine, hq, hlast] at hmine
      exact absurd (congrArg Prod.fst hmine) (by simp)
    | some last =>
      cases hpow : powLoop H
          (Block.create H (last.index + 1) bc.unconfirmed_transactions ts
            last.hash 0) 0 fuel with
      | none =>
        rw [Blockchain.mine, hq, hlast] at hmine
        rw [hq] at hpow
        simp only [hpow] at hmine
        exact absurd (congrArg Prod.fst hmine) (by simp)
      | some p =>
        obtain ⟨n, s⟩ := p
        rw [mine_eq_of_pow H fuel ts bc last t0 rest n s hq hlast hpow] at hmine
        obtain ⟨he, hz, -, hmin⟩ := powLoop_some H _ fuel 0 n s hpow
        have hnb : nb = { Block.create H (last.index + 1)
            bc.unconfirmed_transactions ts last.hash 0 with
              nonce := n, hash := s } := by
          have := congrArg Prod.fst hmine
          simpa using this.symm
        subst hnb
        exact ⟨hz, he, hmin m (Nat.zero_le m) hm⟩

/-- Witness for C4 (amended): under `H4` the mined block wins at nonce 1,
its hash meets the prefix and equals its recomputation, and nonce 0 fails
the prefix. -/
theorem mine_pow_least_witness :
    demoMinedBlock4.hash.startswith (zeros classDifficulty) = true ∧
    demoMinedBlock4.hash = Block.compute_hash H4 demoMinedBlock4 ∧
    (Block.compute_hash H4 { demoMinedBlock4 with nonce := 0 }).startswith
      (zeros classDifficulty) = false :=
  mine_pow_least H4 2 5 demoBc4q demoMinedBlock4 demoMineRes4.2 0
    (by decide) (by decide)

/-- C5: verifying a freshly generated proof with the generator's own key
pair (RSA-PSS correctness assumed for that pair) within the 24-hour window
yields a fully positive report, and for every signed proof the overall
`valid` flag is exactly the conjunction of signature validity, structural
validity and non-expiry. -/
theorem verify_generate_valid (H : HashInput → String) (S : SigScheme)
    (sk pk : Nat) (customer_data : Payload) (level inst : String)
    (commitTime : Int) (challenge proofId : String) (genAt now : Int)
    (q : KYCProof) (sig : String) (r : VerificationReport)
    (hS : ∀ m, S.sverify pk (S.sign sk m) m = true)
    (hage : now - genAt < 86400)
    (hsig : q.proof_signature = some sig)
    (hrep : verify_kyc_proof S pk q now = .report r) :
    verify_kyc_proof S pk
        (generate_kyc_proof H S sk customer_data level inst commitTime
          challenge proofId genAt) now =
      .report
        { valid := true, signature_verified := true, structure_valid := true,
          not_expired := true, proof_age_seconds := now - genAt,
          verification_level := level, issuing_institution := inst } ∧
    r.valid = (r.signature_verified && r.structure_valid && r.not_expired) := by
  constructor
  · simp only [generate_kyc_proof, verify_kyc_proof, validate_proof_structure,
      hS, Bool.and_true, Bool.true_and, decide_eq_true hage]
  · simp only [verify_kyc_proof, hsig] at hrep
    obtain rfl := VerifyResult.report.inj hrep.symm
    rfl

/-- Witness for C5: the demo "CDD" credential checked at its generation time
with the matching demo key handles. -/
theorem verify_generate_valid_witness :
    verify_kyc_proof Sw 7 demoProofCDD 10 =
      .report
        { valid := true, signature_verified := true, structure_valid := true,
          not_expired := true, proof_age_seconds := 10 - 10,
          verification_level := "CDD", issuing_institution := "Bank_A" } ∧
    demoReportCDD.valid =
      (demoReportCDD.signature_verified && demoReportCDD.structure_valid &&
        demoReportCDD.not_expired) :=
  verify_generate_valid Hw Sw 7 7 [("name", "John Doe")] "CDD" "Bank_A" 10 "ch"
    "pid" 10 10 demoProofCDD "7#sig" demoReportCDD
    (fun m => by simp [Sw]) (by decide) (by decide) (by decide)

/-- C6 counterexample: the claim "no key and no value of customer_data
appears verbatim anywhere in the proof's fields" fails when a customer value
coincides with an independently derived field — here the constant
`proof_type` string. -/
theorem proof_contains_customer_value_verbatim :
    ("note", "kyc_verification_proof") ∈
      ([("note", "kyc_verification_proof")] : Payload) ∧
    "kyc_verification_proof" ∈
      proofStrings (generate_kyc_proof Hw Sw 7
        [("note", "kyc_verification_proof")] "CDD" "Bank_A" 10 "ch" "pid" 10) := by
  exact ⟨by decide, by decide⟩

/-- C6 (amended): customer data influences a generated proof only through
the SHA-256 commitment hash (and the signature computed over the proof):
every other field — proof_type, challenge, public_claims, proof_id,
generated_at — is identical for any two customer-data maps, and the
commitment hash is exactly the digest of the commitment built from the
customer data and verification details.  (A literal string coincidence
between a customer value and an independently derived field, such as the
constant proof_type, can still occur.) -/
theorem generate_proof_customer_data_only_in_commitment (H : HashInput → String)
    (S : SigScheme) (sk : Nat) (data1 data2 : Payload) (level inst : String)
    (commitTime : Int) (challenge proofId : String) (genAt : Int) :
    (generate_kyc_proof H S sk data1 level inst commitTime challenge proofId
        genAt).proof_type =
      (generate_kyc_proof H S sk data2 level inst commitTime challenge proofId
        genAt).proof_type ∧
    (generate_kyc_proof H S sk data1 level inst commitTime challenge proofId
        genAt).challenge =
      (generate_kyc_proof H S sk data2 level inst commitTime challenge proofId
        genAt).challenge ∧
    (generate_kyc_proof H S sk data1 level inst commitTime challenge proofId
        genAt).public_claims =
      (generate_kyc_proof H S sk data2 level inst commitTime challenge proofId
        genAt).public_claims ∧
    (generate_kyc_proof H S sk data1 level inst commitTime challenge proofId
        genAt).proof_id =
      (generate_kyc_proof H S sk data2 level inst commitTime challenge proofId
        genAt).proof_id ∧
    (generate_kyc_proof H S sk data1 level inst commitTime challenge proofId
        genAt).generated_at =
      (generate_kyc_proof H S sk data2 level inst commitTime challenge proofId
        genAt).generated_at ∧
    (generate_kyc_proof H S sk data1 level inst commitTime challenge proofId
        genAt).commitment_hash =
      H (.commitment data1 level inst commitTime) :=
  ⟨rfl, rfl, rfl, rfl, rfl, rfl⟩

/-- C7: cross-institution sharing denies outright (with reason) when the
original proof fails re-verification; when it verifies and both levels lie
in the fixed hierarchy {CIP:1, CDD:2, EDD:3}, sharing is approved exactly
when the original level's rank is at least the required level's rank, and an
insufficient rank is denied with an explicit reason naming both levels. -/
theorem cross_institution_sharing_levels (S : SigScheme) (sk pk : Nat)
    (p : KYCProof) (reqInst reqLevel : String) (now : Int) :
    ((verify_kyc_proof S pk p now).valid = false →
      generate_cross_institution_proof S sk pk p reqInst reqLevel now =
        .denied "Original proof is invalid" now) ∧
    ((verify_kyc_proof S pk p now).valid = true →
     ((verify_kyc_proof S pk p now).levelOrNone = "CIP" ∨
      (verify_kyc_proof S pk p now).levelOrNone = "CDD" ∨
      (verify_kyc_proof S pk p now).levelOrNone = "EDD") →
     (reqLevel = "CIP" ∨ reqLevel = "CDD" ∨ reqLevel = "EDD") →
     ((generate_cross_institution_proof S sk pk p reqInst reqLevel
          now).sharing_approved = true ↔
        levelHierarchyGet reqLevel 0 ≤
          levelHierarchyGet (verify_kyc_proof S pk p now).levelOrNone 0) ∧
     (levelHierarchyGet (verify_kyc_proof S pk p now).levelOrNone 0 <
        levelHierarchyGet reqLevel 0 →
      generate_cross_institution_proof S sk pk p reqInst reqLevel now =
        .denied ("Verification level " ++
          (verify_kyc_proof S pk p now).levelOrNone ++
          " insufficient for requirement " ++ reqLevel) now)) := by
  constructor
  · intro hinv
    simp only [generate_cross_institution_proof, hinv]
    simp
  · intro hv hlv hrl
    have hdef : levelHierarchyGet reqLevel 2 = levelHierarchyGet reqLevel 0 := by
      rcases hrl with h | h | h <;> subst h <;> rfl
    simp only [generate_cross_institution_proof, hv]
    rw [if_neg (by simp), hdef]
    by_cases hlt : levelHierarchyGet (verify_kyc_proof S pk p now).levelOrNone 0 <
        levelHierarchyGet reqLevel 0
    · rw [if_pos hlt]
      refine ⟨⟨fun hap => absurd hap Bool.false_ne_true,
        fun hle => absurd hlt (not_lt.mpr hle)⟩, fun _ => rfl⟩
    · rw [if_neg hlt]
      exact ⟨⟨fun _ => not_lt.mp hlt, fun _ => rfl⟩, fun h => absurd h hlt⟩

/-- Witness for C7: original level EDD with requirement CDD is approved;
original level CIP with requirement EDD is denied citing the levels. -/
theorem cross_institution_sharing_levels_witness :
    (generate_cross_institution_proof Sw 7 7 demoProofEDD "Bank_B" "CDD"
        10).sharing_approved = true ∧
    generate_cross_institution_proof Sw 7 7 demoProofCIP "Bank_B" "EDD" 10 =
      .denied "Verification level CIP insufficient for requirement EDD" 10 :=
  ⟨((cross_institution_sharing_levels Sw 7 7 demoProofEDD "Bank_B" "CDD" 10).2
      (by decide) (Or.inr (Or.inr (by decide))) (Or.inr (Or.inl rfl))).1.mpr
      (by decide),
   ((cross_institution_sharing_levels Sw 7 7 demoProofCIP "Bank_B" "EDD" 10).2
      (by decide) (Or.inl (by decide)) (Or.inr (Or.inr rfl))).2 (by decide)⟩

/-- C8: loading the document saved from any blockchain yields a chain of the
same length whose blocks, in order, carry identical index, nonce,
previous_hash and hash values, and whose transactions, in order, carry
identical tx_hash values. -/
theorem save_load_roundtrip (H : HashInput → String) (bc : Blockchain)
    (saved_at : Int) :
    (load_blockchain H (save_blockchain bc saved_at)).1.chain.length =
      bc.chain.length ∧
    (load_blockchain H (save_blockchain bc saved_at)).1.chain.map Block.index =
      bc.chain.map Block.index ∧
    (load_blockchain H (save_blockchain bc saved_at)).1.chain.map Block.nonce =
      bc.chain.map Block.nonce ∧
    (load_blockchain H (save_blockchain bc saved_at)).1.chain.map
        Block.previous_hash =
      bc.chain.map Block.previous_hash ∧
    (load_blockchain H (save_blockchain bc saved_at)).1.chain.map Block.hash =
      bc.chain.map Block.hash ∧
    (load_blockchain H (save_blockchain bc saved_at)).1.chain.map
        (fun b => b.transactions.map Transaction.tx_hash) =
      bc.chain.map (fun b => b.transactions.map Transaction.tx_hash) := by
  refine ⟨?_, ?_, ?_, ?_, ?_, ?_⟩
  · simp [load_blockchain, save_blockchain]
  · simp only [load_blockchain, save_blockchain, List.map_map]
    exact congrFun (congrArg List.map (funext fun b => rfl)) bc.chain
  · simp only [load_blockchain, save_blockchain, List.map_map]
    exact congrFun (congrArg List.map (funext fun b => rfl)) bc.chain
  · simp only [load_blockchain, save_blockchain, List.map_map]
    exact congrFun (congrArg List.map (funext fun b => rfl)) bc.chain
  · simp only [load_blockchain, save_blockchain, List.map_map]
    exact congrFun (congrArg List.map (funext fun b => rfl)) bc.chain
  · simp only [load_blockchain, save_blockchain, List.map_map]
    refine congrFun (congrArg List.map (funext fun b => ?_)) bc.chain
    show List.map Transaction.tx_hash
        ((b.transactions.map Transaction.to_dict).map (loadTx H)) =
      List.map Transaction.tx_hash b.transactions
    simp only [List.map_map]
    exact congrFun (congrArg List.map (funext fun t => rfl)) b.transactions

/-- C9 (code defect exhibit): `corruptDoc` stores a transaction whose
`tx_hash` ("BOGUS") differs from the hash recomputed over the transaction's
own fields, yet because the enclosing block hash commits to the bogus value
the load-time validity walk passes: `load_blockchain` reports the chain
valid and silently installs the stored `tx_hash` — no per-transaction
recomputation or corruption flag exists. -/
theorem load_trusts_stored_tx_hash :
    corruptLoaded.2 = true ∧
    corruptLoadedTx.tx_hash = "BOGUS" ∧
    Transaction.compute_hash Hw corruptLoadedTx ≠ "BOGUS" := by
  exact ⟨by decide, by decide, by decide⟩

/-- C10: after loading a snapshot whose metadata records a difficulty other
than 2, the instance attribute does carry that value, but `is_valid_proof`,
`check_chain_validity` and `proof_of_work` still enforce exactly the
class-level difficulty of 2 leading '0' characters — the per-instance
attribute is never consulted. -/
theorem load_difficulty_not_consulted (H : HashInput → String)
    (doc : BlockchainData) (b : Block) (proof : String) (chain : List Block)
    (fuel : Nat)
    (_hneq : doc.metadata.difficulty ≠ 2) :
    (load_blockchain H doc).1.difficulty = doc.metadata.difficulty ∧
    Blockchain.is_valid_proof H (load_blockchain H doc).1 b proof =
      (proof.startswith (zeros 2) && (proof == Block.compute_hash H b)) ∧
    Blockchain.check_chain_validity H (load_blockchain H doc).1 chain =
      Blockchain.check_chain_validity H
        { (load_blockchain H doc).1 with difficulty := 2 } chain ∧
    Blockchain.proof_of_work H fuel (load_blockchain H doc).1 b =
      Blockchain.proof_of_work H fuel
        { (load_blockchain H doc).1 with difficulty := 2 } b :=
  ⟨rfl, rfl, rfl, rfl⟩

/-- Witness for C10 at a snapshot recording difficulty 5. -/
theorem load_difficulty_not_consulted_witness :
    (load_blockchain Hw doc5).1.difficulty = doc5.metadata.difficulty ∧
    Blockchain.is_valid_proof Hw (load_blockchain Hw doc5).1 demoGenesis
        demoGenesis.hash =
      (demoGenesis.hash.startswith (zeros 2) &&
        (demoGenesis.hash == Block.compute_hash Hw demoGenesis)) ∧
    Blockchain.check_chain_validity Hw (load_blockchain Hw doc5).1 [] =
      Blockchain.check_chain_validity Hw
        { (load_blockchain Hw doc5).1 with difficulty := 2 } [] ∧
    Blockchain.proof_of_work Hw 1 (load_blockchain Hw doc5).1 demoGenesis =
      Blockchain.proof_of_work Hw 1
        { (load_blockchain Hw doc5).1 with difficulty := 2 } demoGenesis :=
  load_difficulty_not_consulted Hw doc5 demoGenesis demoGenesis.hash [] 1
    (by decide)
